import Mathlib

/-!
Shallow embedding of the gitness plugin catalog synchronization engine
(package `plugin`: `PluginManager.Populate`, `traverseAndUpsertPlugins`,
`downloadZip`, `GetLookupFn`) together with theorems settling the frozen
claims about it.

External collaborators that are not part of the translated source
(the YAML manifest parser of `github.com/drone/spec`, the HTTP transport,
the persistent plugin store) are modelled as explicit parameters or, where
the spec pins their behaviour down, by definitions marked
`Modelled from the spec`.
-/

namespace Gitness

/-- `types.Plugin`, restricted to the fields the translated code reads or
writes (`Description`, `UID`, `Type`, `Spec`, `Logo`; the Go field `Type` is
rendered `Typ`, `Type` being a Lean keyword). The struct itself is
outside the translated slice; the field set is taken from its uses in
`traverseAndUpsertPlugins` and from the spec's data model. -/
structure Plugin where
  Description : String
  UID : String
  Typ : String
  Spec : String
  Logo : String
deriving DecidableEq

/-- Modelled from the spec: `types.Plugin.Matches` is not under `src/`.
The spec defines a descriptor's content identity as byte-for-byte equality
of (type, description, raw specification text, logo). -/
def Plugin.Matches (p other : Plugin) : Bool :=
  p.Typ == other.Typ && p.Description == other.Description &&
    p.Spec == other.Spec && p.Logo == other.Logo

/-- The variant carried by a parsed `v1yaml.Config`: the code recognises
`*v1yaml.PluginStep` and `*v1yaml.PluginStage` (each with a `Description`
field) and rejects everything else. -/
inductive ConfigSpec where
  | pluginStep (Description : String)
  | pluginStage (Description : String)
  | other
deriving DecidableEq

/-- The parsed manifest (`v1yaml.Config`): the code reads `Name`, `Type`
(rendered `Typ`) and the variant `Spec`. -/
structure Config where
  Name : String
  Typ : String
  Spec : ConfigSpec
deriving DecidableEq

/-- One archive entry (`zip.File`): its path inside the archive and its
content; `content = none` models a per-entry open/read failure (both are
logged and skipped by the code, so they are collapsed into one case). -/
structure ZipFile where
  Name : String
  content : Option String
deriving DecidableEq

/-! ### Go `path/filepath.Match`

The source matches entry names against the fixed pattern
`"**/plugins/*/*.yaml"` with `filepath.Match`. In Go's `filepath.Match`
a `*` matches any (possibly empty) run of non-separator characters and
`**` has no special meaning (it is just `*` immediately followed by `*`,
equivalent to a single `*`). The model below implements `filepath.Match`
for patterns built from literal characters, `/` and `*` — the only
constructs appearing in the fixed pattern (no `?`, no character class,
no escape). -/

/-- All suffixes of `n` reachable by letting a `*` consume a (possibly
empty) run of non-`/` characters from the front. -/
def starSuffixes : List Char → List (List Char)
  | [] => [[]]
  | c :: cs => (c :: cs) :: (if c == '/' then [] else starSuffixes cs)

/-- Glob matching of a whole name against a whole pattern, Go
`filepath.Match` semantics for literal/`*` patterns. -/
def globMatch : List Char → List Char → Bool
  | [], n => n.isEmpty
  | '*' :: ps, n => (starSuffixes n).any fun s => globMatch ps s
  | _ :: _, [] => false
  | p :: ps, c :: cs => p == c && globMatch ps cs

/-- `filepath.Match(pattern, name)` on strings. -/
def filepathMatch (pattern name : String) : Bool :=
  globMatch pattern.toList name.toList

/-- The fixed pattern used by `traverseAndUpsertPlugins`. -/
def pluginsGlobPattern : String := "**/plugins/*/*.yaml"

/-! ### Go `path/filepath.Dir` / `Join`

Used only to locate the sibling `logo.svg` of a matched manifest. The
model agrees with Go on slash-separated names without empty or dot
segments (the `Clean` step of Go's implementation is the identity
there). -/

/-- `filepath.Dir`: everything before the final path element; `"."` when
the name has no separator. -/
def filepathDir (s : String) : String :=
  match s.toList.reverse.dropWhile (fun c => c != '/') with
  | [] => "."
  | _ :: rest => String.mk rest.reverse

/-- `filepath.Join` of a directory and a file name. -/
def filepathJoin (dir file : String) : String :=
  if dir == "" || dir == "." then file else dir ++ "/" ++ file

/-- `zip.ReadCloser.Open`: resolve a name inside the archive (first entry
with that exact name). -/
def zipOpen (archive : List ZipFile) (name : String) : Option ZipFile :=
  archive.find? fun f => f.Name == name

/-! ### The catalog store

`store.PluginStore` is not under `src/`; the spec (§6) fixes its
semantics: `Create` fails if the identifier already exists, `Update`
fails if it is absent. The catalog is addressed by identifier, so it is
modelled as a partial map from UID to descriptor. `envFail` additionally
injects environmental failures (network / database faults) by store-call
index, so that the non-fatality of a failed call is expressible; a call
that fails leaves the catalog unchanged. -/

/-- The persisted catalog, addressed by identifier. -/
abbrev Catalog := String → Option Plugin

/-- Writing one descriptor at its identifier. -/
def dbInsert (db : Catalog) (p : Plugin) : Catalog :=
  fun uid => if uid = p.UID then some p else db uid

/-- One store mutation attempted by the pass (`pluginStore.Create` /
`pluginStore.Update`), recorded in call order. -/
inductive StoreOp where
  | create (p : Plugin)
  | update (p : Plugin)
deriving DecidableEq

/-- The identifier a store call addresses. -/
def StoreOp.uid : StoreOp → String
  | .create p => p.UID
  | .update p => p.UID

/-- State threaded through one populate pass: the live catalog, the
`cnt` counter of successful creates, and the trace of attempted store
calls. -/
structure PassState where
  db : Catalog
  cnt : Nat
  ops : List StoreOp

/-- The environment in which every store call succeeds. -/
def noFailures : Nat → Bool := fun _ => false

/-- `configDescription`: the `switch config.Spec.(type)` of the source —
`PluginStep` and `PluginStage` yield their description, anything else is
logged and skipped. -/
def configDescription : ConfigSpec → Option String
  | .pluginStep d => some d
  | .pluginStage d => some d
  | .other => none

/-- The per-entry half of the loop body of `traverseAndUpsertPlugins`:
glob-match the entry name, read the entry, parse it
(`parse.ParseBytes`, an external parser passed as `parse`), check the
variant, and assemble the `types.Plugin` descriptor, attaching the
sibling `logo.svg` when it can be opened and read. `none` means the
entry is skipped (unmatched, unreadable, unparsable, or unrecognised
variant) — all non-fatal in the source. -/
def processEntry (parse : String → Option Config) (archive : List ZipFile)
    (file : ZipFile) : Option Plugin :=
  if filepathMatch pluginsGlobPattern file.Name then
    match file.content with
    | none => none
    | some buf =>
      match parse buf with
      | none => none
      | some config =>
        match configDescription config.Spec with
        | none => none
        | some desc =>
          let plugin : Plugin :=
            { Description := desc, UID := config.Name, Typ := config.Typ
              Spec := buf, Logo := "" }
          let dir := filepathDir file.Name
          let logoFile := filepathJoin dir ("logo.svg")
          match zipOpen archive logoFile with
          | some lf =>
            match lf.content with
            | some l => some { plugin with Logo := l }
            | none => some plugin
          | none => some plugin
  else none

/-- The reconciliation half of the loop body: look the descriptor up in
the pre-pass index `pluginMap`; skip when content-identical, otherwise
`Update` (identifier present in the index) or `Create` (absent), with
`cnt` incremented only by a successful `Create`. A failed call is logged
and the loop continues, which here means: the state is returned with the
catalog unchanged. -/
def reconcileOne (pluginMap : Catalog) (envFail : Nat → Bool)
    (s : PassState) (plugin : Plugin) : PassState :=
  match pluginMap plugin.UID with
  | some p =>
    if p.Matches plugin then s
    else
      let ok := (s.db plugin.UID).isSome && !(envFail s.ops.length)
      { db := if ok then dbInsert s.db plugin else s.db
        cnt := s.cnt
        ops := s.ops ++ [.update plugin] }
  | none =>
    let ok := (s.db plugin.UID).isNone && !(envFail s.ops.length)
    { db := if ok then dbInsert s.db plugin else s.db
      cnt := if ok then s.cnt + 1 else s.cnt
      ops := s.ops ++ [.create plugin] }

/-- The state a pass starts from: the catalog as listed by
`pluginStore.ListAll`, `cnt = 0`, no calls yet. -/
def initState (db0 : Catalog) : PassState :=
  { db := db0, cnt := 0, ops := [] }

/-- `traverseAndUpsertPlugins`: list the catalog, index it by identifier
(`pluginMap`, built once from `ListAll` and never refreshed during the
pass), then fold the loop body over the archive's entries in order. -/
def traverseAndUpsertPlugins (parse : String → Option Config)
    (envFail : Nat → Bool) (db0 : Catalog) (files : List ZipFile) : PassState :=
  files.foldl
    (fun s file =>
      match processEntry parse files file with
      | none => s
      | some plugin => reconcileOne db0 envFail s plugin)
    (initState db0)

/-- Spec-side generalization for the traversal-order claim: traverse the
archive's entries in the order given by `order` while sibling-logo
lookups still resolve against the full `archive`. With `order = archive`
this is exactly `traverseAndUpsertPlugins`. -/
def traverseUpsertInOrder (parse : String → Option Config)
    (envFail : Nat → Bool) (db0 : Catalog) (archive order : List ZipFile) :
    PassState :=
  order.foldl
    (fun s file =>
      match processEntry parse archive file with
      | none => s
      | some plugin => reconcileOne db0 envFail s plugin)
    (initState db0)

/-- The descriptors a pass successfully extracts from the archive, in
traversal order. -/
def parsedDescriptors (parse : String → Option Config)
    (files : List ZipFile) : List Plugin :=
  files.filterMap (processEntry parse files)

/-! ### `downloadZip` and the HTTP transport -/

/-- An HTTP response as seen by `http.Get`: a status code and a body.
`http.Get` itself returns an error only for transport-level failures,
never for a non-2xx status. -/
structure HTTPResponse where
  StatusCode : Nat
  Body : String
deriving DecidableEq

/-- `downloadZip(url, path)`: perform the GET and copy the response body
to the local file. The translated source never reads
`response.StatusCode`; whatever body arrives is what lands in the file.
The returned value is the content written to `path` (file creation and
copy are modelled as succeeding; their failures are orthogonal to the
claims). -/
def downloadZip (httpGet : String → Except String HTTPResponse)
    (url : String) : Except String String :=
  match httpGet url with
  | .error e => .error ("could not get zip from url: " ++ e)
  | .ok response => .ok response.Body

/-! ### `GetLookupFn` -/

/-- `GetLookupFn`'s returned closure: guard `kind` and `typ`, then
`pluginStore.Find` (the external store's read, passed as `find`), then
`parse.ParseString` on the stored spec. The second component records
whether `Find` was invoked. -/
def GetLookupFn (find : String → String → Except String Plugin)
    (parseStr : String → Option Config)
    (name kind typ version : String) : Except String Config × Bool :=
  if kind != "plugin" then (.error ("only plugin kind supported"), false)
  else if typ != "step" then (.error ("only step plugins supported"), false)
  else
    match find name version with
    | .error e => (.error ("could not lookup plugin: " ++ e), true)
    | .ok plugin =>
      match parseStr plugin.Spec with
      | none => (.error ("could not unmarshal plugin to v1yaml spec"), true)
      | some config => (.ok config, true)

/-! ### Derived characterizations used by the theorems -/

/-- The store call(s) the reconciliation step attempts for one
descriptor, as a function of the pre-pass index alone: skip, one
`update`, or one `create`. -/
def opFor (pluginMap : Catalog) (plugin : Plugin) : List StoreOp :=
  match pluginMap plugin.UID with
  | some p => if p.Matches plugin then [] else [.update plugin]
  | none => [.create plugin]

/-- The full trace of store calls a pass attempts, as a function of the
pre-pass index and the parsed descriptors in traversal order. -/
def traceList (pluginMap : Catalog) : List Plugin → List StoreOp
  | [] => []
  | p :: rest => opFor pluginMap p ++ traceList pluginMap rest

/-- A descriptor is settled in a catalog when the catalog holds a
content-identical descriptor under its identifier (the skip case of
reconciliation). -/
def settled (db : Catalog) (d : Plugin) : Prop :=
  ∃ q, db d.UID = some q ∧ q.Matches d = true

/-- During a pass every catalog entry is either a pre-pass entry or a
descriptor of the current archive stored under its own identifier. -/
def SInv (db0 : Catalog) (descs : List Plugin) (db : Catalog) : Prop :=
  ∀ uid q, db uid = some q → db0 uid = some q ∨ (q ∈ descs ∧ q.UID = uid)

/-- Identifiers present before the pass stay present (the pass never
deletes). -/
def Reach (db0 db : Catalog) : Prop :=
  ∀ uid, (db0 uid).isSome → (db uid).isSome

/-- No two parsed descriptors share an identifier with different
content: the well-formedness of an archive under which the spec's
idempotence and order-independence statements hold. -/
def UniqueContent (l : List Plugin) : Prop :=
  ∀ x ∈ l, ∀ y ∈ l, x.UID = y.UID → x = y

instance (l : List Plugin) : Decidable (UniqueContent l) := by
  unfold UniqueContent
  infer_instance

/-- The `(catalog, cnt)` effect of one reconciliation step when every
store call succeeds (no environmental failures); the trace of calls is
dropped. -/
def reconcileDB (pluginMap : Catalog) (s : Catalog × Nat) (d : Plugin) :
    Catalog × Nat :=
  match pluginMap d.UID with
  | some p =>
    if p.Matches d then s
    else ((if (s.1 d.UID).isSome then dbInsert s.1 d else s.1), s.2)
  | none =>
    if (s.1 d.UID).isNone then (dbInsert s.1 d, s.2 + 1) else s

/-- Whether the step writes the descriptor, as a function of the
pre-pass index and the current catalog value at its identifier. -/
def stepInsert (pluginMap : Catalog) (dbval : Option Plugin) (d : Plugin) :
    Bool :=
  match pluginMap d.UID with
  | some p => if p.Matches d then false else dbval.isSome
  | none => dbval.isNone

/-- Whether the step increments the created counter. -/
def stepInc (pluginMap : Catalog) (dbval : Option Plugin) (d : Plugin) :
    Nat :=
  match pluginMap d.UID with
  | some _ => 0
  | none => if dbval.isNone then 1 else 0

/-! ### Concrete fixtures

A concrete stand-in for the external YAML parser and a handful of
archive entries, used by the counterexamples and witnesses: `"specA"`
and `"specB"` are two manifest texts declaring the same plugin name
`"docker"` with different descriptions, `"specC"` declares `"envoy"`. -/

/-- Concrete parser instance for scenarios. -/
def parseStub : String → Option Config := fun s =>
  if s = "specA" then
    some { Name := "docker", Typ := "step", Spec := .pluginStep ("descA") }
  else if s = "specB" then
    some { Name := "docker", Typ := "step", Spec := .pluginStep ("descB") }
  else if s = "specC" then
    some { Name := "envoy", Typ := "step", Spec := .pluginStep ("descC") }
  else none

/-- Archive entry declaring `"docker"` with spec `"specA"`. -/
def entryA : ZipFile :=
  { Name := "dist/plugins/docker/plugin.yaml", content := some ("specA") }

/-- A second entry (different path) also declaring `"docker"`, with the
different spec `"specB"`. -/
def entryB : ZipFile :=
  { Name := "dist/plugins/docker2/plugin.yaml", content := some ("specB") }

/-- Archive entry declaring `"envoy"`. -/
def entryC : ZipFile :=
  { Name := "dist/plugins/envoy/plugin.yaml", content := some ("specC") }

/-- A manifest placed at the archive root, exactly as in the spec's
scenario (`plugins/docker/plugin.yaml`). -/
def entryRoot : ZipFile :=
  { Name := "plugins/docker/plugin.yaml", content := some ("specA") }

/-- The descriptor extracted from `entryA`. -/
def dA : Plugin :=
  { Description := "descA", UID := "docker", Typ := "step"
    Spec := "specA", Logo := "" }

/-- The descriptor extracted from `entryB` (same identifier as `dA`,
different content). -/
def dB : Plugin :=
  { Description := "descB", UID := "docker", Typ := "step"
    Spec := "specB", Logo := "" }

/-- The descriptor extracted from `entryC`. -/
def dC : Plugin :=
  { Description := "descC", UID := "envoy", Typ := "step"
    Spec := "specC", Logo := "" }

/-- The empty pre-pass catalog. -/
def emptyCatalog : Catalog := fun _ => none

/-- An archive whose two entries parse to descriptors with the same
identifier but different content. -/
def dupArchive : List ZipFile := [entryA, entryB]

/-- An archive whose descriptors have pairwise distinct identifiers. -/
def okArchive : List ZipFile := [entryA, entryC]

/-- The environment in which every store call fails. -/
def envAlwaysFail : Nat → Bool := fun _ => true

/-- Concrete store read for the lookup scenarios. -/
def findStub : String → String → Except String Plugin :=
  fun _ _ => Except.ok dA

/-! ### Helper lemmas -/

lemma Matches_refl (p : Plugin) : p.Matches p = true := by
  simp [Plugin.Matches]

lemma reconcileOne_ops (pluginMap : Catalog) (envFail : Nat → Bool)
    (s : PassState) (d : Plugin) :
    (reconcileOne pluginMap envFail s d).ops = s.ops ++ opFor pluginMap d := by
  unfold reconcileOne opFor
  cases pluginMap d.UID with
  | none => simp
  | some p =>
    by_cases h : p.Matches d <;> simp [h]

lemma foldl_ops (pluginMap : Catalog) (envFail : Nat → Bool) :
    ∀ (l : List Plugin) (s : PassState),
      (l.foldl (reconcileOne pluginMap envFail) s).ops =
        s.ops ++ traceList pluginMap l := by
  intro l
  induction l with
  | nil => intro s; simp [traceList]
  | cons d rest ih =>
    intro s
    simp only [List.foldl_cons, traceList]
    rw [ih, reconcileOne_ops, List.append_assoc]

lemma foldl_skip_none (parse : String → Option Config)
    (envFail : Nat → Bool) (db0 : Catalog) (archive : List ZipFile) :
    ∀ (l : List ZipFile) (s : PassState),
      l.foldl
        (fun s file =>
          match processEntry parse archive file with
          | none => s
          | some plugin => reconcileOne db0 envFail s plugin) s =
        (l.filterMap (processEntry parse archive)).foldl
          (reconcileOne db0 envFail) s := by
  intro l
  induction l with
  | nil => intro s; rfl
  | cons f rest ih =>
    intro s
    simp only [List.foldl_cons, List.filterMap_cons]
    cases hp : processEntry parse archive f with
    | none => exact ih s
    | some plugin => simp only [List.foldl_cons]; exact ih _

lemma traverse_eq (parse : String → Option Config) (envFail : Nat → Bool)
    (db0 : Catalog) (files : List ZipFile) :
    traverseAndUpsertPlugins parse envFail db0 files =
      (parsedDescriptors parse files).foldl (reconcileOne db0 envFail)
        (initState db0) :=
  foldl_skip_none parse envFail db0 files files (initState db0)

lemma inOrder_eq (parse : String → Option Config) (envFail : Nat → Bool)
    (db0 : Catalog) (archive order : List ZipFile) :
    traverseUpsertInOrder parse envFail db0 archive order =
      (order.filterMap (processEntry parse archive)).foldl
        (reconcileOne db0 envFail) (initState db0) :=
  foldl_skip_none parse envFail db0 archive order (initState db0)

lemma dbInsert_ne (db : Catalog) (p : Plugin) (uid : String)
    (h : uid ≠ p.UID) : dbInsert db p uid = db uid := by
  simp [dbInsert, h]

lemma dbInsert_self (db : Catalog) (p : Plugin) :
    dbInsert db p p.UID = some p := by
  simp [dbInsert]

lemma reconcileOne_db_other (pluginMap : Catalog) (envFail : Nat → Bool)
    (s : PassState) (d : Plugin) (uid : String) (h : uid ≠ d.UID) :
    (reconcileOne pluginMap envFail s d).db uid = s.db uid := by
  unfold reconcileOne
  cases pluginMap d.UID with
  | none => simp only; split <;> simp [dbInsert_ne _ _ _ h]
  | some p =>
    by_cases hm : p.Matches d
    · simp [hm]
    · simp only [hm, if_neg, Bool.false_eq_true]
      simp only [if_false]
      split <;> simp [dbInsert_ne _ _ _ h]

lemma reconcileOne_db_self (pluginMap : Catalog) (envFail : Nat → Bool)
    (s : PassState) (d : Plugin) :
    (reconcileOne pluginMap envFail s d).db d.UID = s.db d.UID ∨
      (reconcileOne pluginMap envFail s d).db d.UID = some d := by
  unfold reconcileOne
  cases pluginMap d.UID with
  | none =>
    simp only
    split
    · right; exact dbInsert_self _ _
    · left; rfl
  | some p =>
    by_cases hm : p.Matches d
    · left; simp [hm]
    · simp only [hm, Bool.false_eq_true, if_false]
      split
      · right; exact dbInsert_self _ _
      · left; rfl

lemma opFor_uid (pluginMap : Catalog) (d : Plugin) (op : StoreOp)
    (h : op ∈ opFor pluginMap d) : op.uid = d.UID := by
  unfold opFor at h
  cases hpm : pluginMap d.UID with
  | none =>
    rw [hpm] at h
    simp at h
    rw [h]; rfl
  | some p =>
    rw [hpm] at h
    by_cases hm : p.Matches d
    · simp [hm] at h
    · simp [hm] at h
      rw [h]; rfl

lemma traceList_uid (pluginMap : Catalog) :
    ∀ (l : List Plugin) (op : StoreOp), op ∈ traceList pluginMap l →
      ∃ d ∈ l, op.uid = d.UID := by
  intro l
  induction l with
  | nil => intro op h; simp [traceList] at h
  | cons d rest ih =>
    intro op h
    simp only [traceList, List.mem_append] at h
    rcases h with h | h
    · exact ⟨d, List.mem_cons_self d rest, opFor_uid _ _ _ h⟩
    · obtain ⟨x, hx, hu⟩ := ih op h
      exact ⟨x, List.mem_cons_of_mem d hx, hu⟩

lemma traceList_settled (db : Catalog) :
    ∀ (l : List Plugin), (∀ d ∈ l, settled db d) →
      traceList db l = [] := by
  intro l
  induction l with
  | nil => intro _; rfl
  | cons d rest ih =>
    intro h
    obtain ⟨q, hq, hm⟩ := h d (List.mem_cons_self d rest)
    simp only [traceList]
    rw [ih (fun x hx => h x (List.mem_cons_of_mem d hx))]
    unfold opFor
    rw [hq]
    simp [hm]

lemma foldl_db_other (pluginMap : Catalog) (envFail : Nat → Bool)
    (uid : String) :
    ∀ (l : List Plugin) (s : PassState), (∀ d ∈ l, d.UID ≠ uid) →
      (l.foldl (reconcileOne pluginMap envFail) s).db uid = s.db uid := by
  intro l
  induction l with
  | nil => intro s _; rfl
  | cons d rest ih =>
    intro s h
    simp only [List.foldl_cons]
    rw [ih _ (fun x hx => h x (List.mem_cons_of_mem d hx))]
    exact reconcileOne_db_other _ _ _ _ _
      (fun hh => h d (List.mem_cons_self d rest) hh.symm)

lemma SInv_step (db0 : Catalog) (descs : List Plugin)
    (envFail : Nat → Bool) (s : PassState) (d : Plugin) (hd : d ∈ descs)
    (hS : SInv db0 descs s.db) :
    SInv db0 descs (reconcileOne db0 envFail s d).db := by
  intro uid q hq
  by_cases h : uid = d.UID
  · subst h
    rcases reconcileOne_db_self db0 envFail s d with h1 | h1
    · rw [h1] at hq; exact hS _ _ hq
    · rw [h1] at hq
      cases hq
      exact Or.inr ⟨hd, rfl⟩
  · rw [reconcileOne_db_other _ _ _ _ _ h] at hq
    exact hS _ _ hq

lemma Reach_step (db0 : Catalog) (envFail : Nat → Bool) (s : PassState)
    (d : Plugin) (hR : Reach db0 s.db) :
    Reach db0 (reconcileOne db0 envFail s d).db := by
  intro uid h0
  by_cases h : uid = d.UID
  · subst h
    rcases reconcileOne_db_self db0 envFail s d with h1 | h1 <;> rw [h1]
    · exact hR _ h0
    · rfl
  · rw [reconcileOne_db_other _ _ _ _ _ h]
    exact hR _ h0

lemma settle_establish (db0 : Catalog) (descs : List Plugin)
    (s : PassState) (d : Plugin) (hfun : UniqueContent descs)
    (hd : d ∈ descs) (hS : SInv db0 descs s.db) (hR : Reach db0 s.db) :
    settled (reconcileOne db0 noFailures s d).db d := by
  unfold reconcileOne
  cases hpm : db0 d.UID with
  | some p =>
    by_cases hm : p.Matches d
    · -- skip: the catalog already settles d
      simp only [hm, if_true]
      have hsome : (s.db d.UID).isSome := hR _ (by rw [hpm]; rfl)
      obtain ⟨q, hq⟩ := Option.isSome_iff_exists.mp hsome
      rcases hS _ _ hq with h0 | ⟨hqd, hquid⟩
      · rw [hpm] at h0
        have hpq : p = q := by injection h0
        exact ⟨q, hq, by rw [← hpq]; exact hm⟩
      · have hqe : q = d := hfun q hqd d hd hquid
        exact ⟨q, hq, by rw [hqe]; exact Matches_refl d⟩
    · -- update: succeeds (identifier present, no environmental failure)
      have hsome : (s.db d.UID).isSome = true := hR _ (by rw [hpm]; rfl)
      simp only [hm, Bool.false_eq_true, if_false, noFailures, hsome,
        Bool.not_false, Bool.and_self, if_true]
      exact ⟨d, dbInsert_self _ _, Matches_refl d⟩
  | none =>
    cases hdb : s.db d.UID with
    | none =>
      -- create succeeds
      simp only [hdb, Option.isNone_none, noFailures, Bool.not_false,
        Bool.and_self, if_true]
      exact ⟨d, dbInsert_self _ _, Matches_refl d⟩
    | some q =>
      -- create fails, but the entry there already settles d
      simp only [hdb, Option.isNone_some, noFailures, Bool.not_false,
        Bool.false_and, if_false]
      rcases hS _ _ hdb with h0 | ⟨hqd, hquid⟩
      · rw [hpm] at h0; cases h0
      · have hqe : q = d := hfun q hqd d hd hquid
        exact ⟨q, hdb, by rw [hqe]; exact Matches_refl d⟩

lemma settle_persist_step (db0 : Catalog) (descs : List Plugin)
    (envFail : Nat → Bool) (s : PassState) (d x : Plugin)
    (hfun : UniqueContent descs) (hd : d ∈ descs) (hx : x ∈ descs)
    (hs : settled s.db d) :
    settled (reconcileOne db0 envFail s x).db d := by
  by_cases h : x.UID = d.UID
  · have hxd : x = d := hfun x hx d hd h
    subst hxd
    rcases reconcileOne_db_self db0 envFail s x with h1 | h1
    · obtain ⟨q, hq, hm⟩ := hs
      exact ⟨q, by rw [h1, hq], hm⟩
    · exact ⟨x, h1, Matches_refl x⟩
  · obtain ⟨q, hq, hm⟩ := hs
    refine ⟨q, ?_, hm⟩
    rw [reconcileOne_db_other _ _ _ _ _ (fun hh => h hh.symm)]
    exact hq

lemma settle_persist_fold (db0 : Catalog) (descs : List Plugin)
    (envFail : Nat → Bool) (d : Plugin) (hfun : UniqueContent descs)
    (hd : d ∈ descs) :
    ∀ (l : List Plugin) (s : PassState), (∀ x ∈ l, x ∈ descs) →
      settled s.db d →
      settled ((l.foldl (reconcileOne db0 envFail) s)).db d := by
  intro l
  induction l with
  | nil => intro s _ hs; exact hs
  | cons x rest ih =>
    intro s hsub hs
    simp only [List.foldl_cons]
    exact ih _ (fun y hy => hsub y (List.mem_cons_of_mem x hy))
      (settle_persist_step db0 descs envFail s d x hfun hd
        (hsub x (List.mem_cons_self x rest)) hs)

lemma settle_main (db0 : Catalog) (descs : List Plugin)
    (hfun : UniqueContent descs) :
    ∀ (l : List Plugin) (s : PassState), (∀ x ∈ l, x ∈ descs) →
      SInv db0 descs s.db → Reach db0 s.db →
      ∀ d ∈ l, settled ((l.foldl (reconcileOne db0 noFailures) s)).db d := by
  intro l
  induction l with
  | nil => intro s _ _ _ d hd; cases hd
  | cons x rest ih =>
    intro s hsub hS hR d hd
    simp only [List.foldl_cons]
    have hx : x ∈ descs := hsub x (List.mem_cons_self x rest)
    have hsub' : ∀ y ∈ rest, y ∈ descs :=
      fun y hy => hsub y (List.mem_cons_of_mem x hy)
    rcases List.mem_cons.mp hd with rfl | hd'
    · exact settle_persist_fold db0 descs noFailures d hfun hx rest _ hsub'
        (settle_establish db0 descs s d hfun hx hS hR)
    · exact ih _ hsub' (SInv_step db0 descs noFailures s x hx hS)
        (Reach_step db0 noFailures s x hR) d hd'

lemma firstRun_settled (parse : String → Option Config) (db0 : Catalog)
    (files : List ZipFile)
    (hfun : UniqueContent (parsedDescriptors parse files)) :
    ∀ d ∈ parsedDescriptors parse files,
      settled (traverseAndUpsertPlugins parse noFailures db0 files).db d := by
  intro d hd
  rw [traverse_eq]
  exact settle_main db0 (parsedDescriptors parse files) hfun
    (parsedDescriptors parse files) (initState db0) (fun x hx => hx)
    (fun uid q hq => Or.inl hq) (fun uid h => h) d hd

lemma reconcileOne_proj (pluginMap : Catalog) (s : PassState) (d : Plugin) :
    ((reconcileOne pluginMap noFailures s d).db,
      (reconcileOne pluginMap noFailures s d).cnt) =
      reconcileDB pluginMap (s.db, s.cnt) d := by
  unfold reconcileOne reconcileDB noFailures
  cases pluginMap d.UID with
  | some p =>
    by_cases hm : p.Matches d <;> by_cases hs : (s.db d.UID).isSome <;>
      simp [hm, hs]
  | none =>
    by_cases hs : (s.db d.UID).isNone <;> simp [hs]

lemma foldl_proj (pluginMap : Catalog) :
    ∀ (l : List Plugin) (s : PassState),
      ((l.foldl (reconcileOne pluginMap noFailures) s).db,
        (l.foldl (reconcileOne pluginMap noFailures) s).cnt) =
        l.foldl (reconcileDB pluginMap) (s.db, s.cnt) := by
  intro l
  induction l with
  | nil => intro s; rfl
  | cons d rest ih =>
    intro s
    simp only [List.foldl_cons]
    rw [ih, reconcileOne_proj]

lemma reconcileDB_eq (pluginMap : Catalog) (s : Catalog × Nat) (d : Plugin) :
    reconcileDB pluginMap s d =
      ((if stepInsert pluginMap (s.1 d.UID) d then dbInsert s.1 d else s.1),
        s.2 + stepInc pluginMap (s.1 d.UID) d) := by
  unfold reconcileDB stepInsert stepInc
  cases pluginMap d.UID with
  | some p =>
    by_cases hm : p.Matches d <;> by_cases hs : (s.1 d.UID).isSome <;>
      simp [hm, hs]
  | none =>
    by_cases hs : (s.1 d.UID).isNone <;> simp [hs]

lemma reconcileDB_fst_other (pluginMap : Catalog) (s : Catalog × Nat)
    (d : Plugin) (uid : String) (h : uid ≠ d.UID) :
    (reconcileDB pluginMap s d).1 uid = s.1 uid := by
  rw [reconcileDB_eq]
  simp only
  split <;> simp [dbInsert_ne _ _ _ h]

lemma dbInsert_comm (db : Catalog) (x y : Plugin) (h : x.UID ≠ y.UID) :
    dbInsert (dbInsert db x) y = dbInsert (dbInsert db y) x := by
  funext uid
  unfold dbInsert
  by_cases h1 : uid = y.UID <;> by_cases h2 : uid = x.UID
  · exact absurd (h2.symm.trans h1) h
  · have h3 : ¬(y.UID = x.UID) := fun hh => h hh.symm
    simp [h1, h2, h3]
  · simp [h1, h2, h]
  · simp [h1, h2]

lemma reconcileDB_comm (pluginMap : Catalog) (s : Catalog × Nat)
    (x y : Plugin) (hxy : x.UID = y.UID → x = y) :
    reconcileDB pluginMap (reconcileDB pluginMap s x) y =
      reconcileDB pluginMap (reconcileDB pluginMap s y) x := by
  by_cases h : x.UID = y.UID
  · rw [hxy h]
  · have hyx : y.UID ≠ x.UID := fun hh => h hh.symm
    have hrx : (reconcileDB pluginMap s y).1 x.UID = s.1 x.UID :=
      reconcileDB_fst_other pluginMap s y x.UID h
    have hry : (reconcileDB pluginMap s x).1 y.UID = s.1 y.UID :=
      reconcileDB_fst_other pluginMap s x y.UID hyx
    rw [reconcileDB_eq pluginMap (reconcileDB pluginMap s x) y,
      reconcileDB_eq pluginMap (reconcileDB pluginMap s y) x, hrx, hry,
      reconcileDB_eq pluginMap s x, reconcileDB_eq pluginMap s y]
    simp only [Prod.mk.injEq]
    constructor
    · cases hbx : stepInsert pluginMap (s.1 x.UID) x <;>
        cases hby : stepInsert pluginMap (s.1 y.UID) y <;>
        simp [dbInsert_comm _ _ _ h]
    · omega

lemma foldl_reconcileDB_perm (pluginMap : Catalog) :
    ∀ {l1 l2 : List Plugin}, l1.Perm l2 → UniqueContent l1 →
      ∀ s : Catalog × Nat,
        l1.foldl (reconcileDB pluginMap) s =
          l2.foldl (reconcileDB pluginMap) s := by
  intro l1 l2 h
  induction h with
  | nil => intro _ s; rfl
  | cons a h ih =>
    intro hfun s
    simp only [List.foldl_cons]
    exact ih (fun x hx y hy =>
      hfun x (List.mem_cons_of_mem a hx) y (List.mem_cons_of_mem a hy)) _
  | swap a b l =>
    intro hfun s
    simp only [List.foldl_cons]
    have hab : b.UID = a.UID → b = a :=
      hfun b (List.mem_cons_self b (a :: l)) a
        (List.mem_cons_of_mem b (List.mem_cons_self a l))
    rw [reconcileDB_comm pluginMap s b a hab]
  | trans h1 h2 ih1 ih2 =>
    intro hfun s
    rw [ih1 hfun s]
    exact ih2 (fun x hx y hy =>
      hfun x (h1.mem_iff.mpr hx) y (h1.mem_iff.mpr hy)) s

/-! ### Claim theorems -/

/-- Claim C1 (code bug). Go's `filepath.Match` gives `**` no any-depth
meaning, so the fixed pattern selects only entries with exactly one
directory above `plugins/`: the spec's root-level scenario entry
`plugins/docker/plugin.yaml` is not selected (a pass over an archive
holding only it attempts no store call and creates nothing), a doubly
nested manifest is not selected either, while a singly nested one is. -/
theorem C1_glob_depth_bug :
    filepathMatch pluginsGlobPattern ("plugins/docker/plugin.yaml") = false ∧
    filepathMatch pluginsGlobPattern ("a/b/plugins/docker/plugin.yaml") =
      false ∧
    filepathMatch pluginsGlobPattern ("dist/plugins/docker/plugin.yaml") =
      true ∧
    (traverseAndUpsertPlugins parseStub noFailures emptyCatalog
      [entryRoot]).ops = [] ∧
    (traverseAndUpsertPlugins parseStub noFailures emptyCatalog
      [entryRoot]).cnt = 0 := by
  decide

/-- Claim C2, counterexample. When the archive's two entries parse to
descriptors with the same identifier but different content, the second
run of the pass over the unchanged archive still performs an `Update`
call: the claim's "zero Create and zero Update calls on the second run"
is false as stated. -/
theorem C2_second_run_not_empty :
    (traverseAndUpsertPlugins parseStub noFailures
        (traverseAndUpsertPlugins parseStub noFailures emptyCatalog
          dupArchive).db dupArchive).ops = [StoreOp.update dB] := by
  decide

/-- Claim C2, amended: provided no two parsed descriptors of the archive
share an identifier with different content, running the pass twice
against the unchanged archive performs zero `Create` and zero `Update`
calls on the second run (every descriptor is found content-identical and
skipped). -/
theorem C2_idempotent (parse : String → Option Config) (db0 : Catalog)
    (files : List ZipFile)
    (hfun : UniqueContent (parsedDescriptors parse files)) :
    (traverseAndUpsertPlugins parse noFailures
        (traverseAndUpsertPlugins parse noFailures db0 files).db
        files).ops = [] := by
  rw [traverse_eq, foldl_ops]
  have h0 : (initState
      (traverseAndUpsertPlugins parse noFailures db0 files).db).ops = [] := rfl
  rw [h0, List.nil_append]
  exact traceList_settled _ _ (firstRun_settled parse db0 files hfun)

/-- Witness for C2_idempotent on a concrete archive with distinct
identifiers. -/
theorem C2_idempotent_witness :
    UniqueContent (parsedDescriptors parseStub okArchive) ∧
    (traverseAndUpsertPlugins parseStub noFailures
        (traverseAndUpsertPlugins parseStub noFailures emptyCatalog
          okArchive).db okArchive).ops = [] :=
  ⟨by decide, C2_idempotent parseStub emptyCatalog okArchive (by decide)⟩

/-- Claim C3, counterexample. Traversing the same two-entry archive in
the two possible orders leaves different catalog contents behind when
both entries parse to the same identifier with different content (the
first one wins: its `Create` succeeds and the later one's fails), so the
catalog after the pass is not independent of traversal order. -/
theorem C3_order_matters :
    dupArchive.Perm [entryB, entryA] ∧
    (traverseUpsertInOrder parseStub noFailures emptyCatalog dupArchive
        [entryB, entryA]).db ("docker") ≠
      (traverseAndUpsertPlugins parseStub noFailures emptyCatalog
        dupArchive).db ("docker") :=
  ⟨List.Perm.swap entryB entryA [], by decide⟩

/-- Claim C3, amended: provided no two parsed descriptors of the archive
share an identifier with different content, the catalog contents and the
created count after the pass are independent of the order in which the
archive's entries are traversed (sibling-logo lookups still resolve
against the full archive). -/
theorem C3_order_independent (parse : String → Option Config)
    (db0 : Catalog) (archive order : List ZipFile)
    (hperm : archive.Perm order)
    (hfun : UniqueContent (parsedDescriptors parse archive)) :
    (traverseUpsertInOrder parse noFailures db0 archive order).db =
      (traverseAndUpsertPlugins parse noFailures db0 archive).db ∧
    (traverseUpsertInOrder parse noFailures db0 archive order).cnt =
      (traverseAndUpsertPlugins parse noFailures db0 archive).cnt := by
  have hp : (parsedDescriptors parse archive).Perm
      (order.filterMap (processEntry parse archive)) := hperm.filterMap _
  have key :
      ((traverseAndUpsertPlugins parse noFailures db0 archive).db,
        (traverseAndUpsertPlugins parse noFailures db0 archive).cnt) =
      ((traverseUpsertInOrder parse noFailures db0 archive order).db,
        (traverseUpsertInOrder parse noFailures db0 archive order).cnt) := by
    rw [traverse_eq, inOrder_eq, foldl_proj, foldl_proj]
    exact foldl_reconcileDB_perm db0 hp hfun _
  exact ⟨congrArg Prod.fst key.symm, congrArg Prod.snd key.symm⟩

/-- Witness for C3_order_independent on a concrete archive with distinct
identifiers, traversed in swapped order. -/
theorem C3_order_independent_witness :
    okArchive.Perm [entryC, entryA] ∧
    UniqueContent (parsedDescriptors parseStub okArchive) ∧
    ((traverseUpsertInOrder parseStub noFailures emptyCatalog okArchive
        [entryC, entryA]).db =
      (traverseAndUpsertPlugins parseStub noFailures emptyCatalog
        okArchive).db ∧
     (traverseUpsertInOrder parseStub noFailures emptyCatalog okArchive
        [entryC, entryA]).cnt =
      (traverseAndUpsertPlugins parseStub noFailures emptyCatalog
        okArchive).cnt) :=
  ⟨List.Perm.swap entryC entryA [], by decide,
    C3_order_independent parseStub emptyCatalog okArchive [entryC, entryA]
      (List.Perm.swap entryC entryA []) (by decide)⟩

/-- Claim C4: a descriptor whose identifier is in the pre-pass index
with byte-for-byte identical content identity is skipped with no store
call at all: the pass state (catalog, count and call trace) is returned
unchanged. -/
theorem C4_skip_no_store_call (pluginMap : Catalog) (envFail : Nat → Bool)
    (s : PassState) (plugin p : Plugin)
    (hfound : pluginMap plugin.UID = some p)
    (hmatch : p.Matches plugin = true) :
    reconcileOne pluginMap envFail s plugin = s := by
  unfold reconcileOne
  rw [hfound]
  simp [hmatch]

/-- Witness for C4_skip_no_store_call. -/
theorem C4_skip_no_store_call_witness :
    dbInsert emptyCatalog dA (dA.UID) = some dA ∧
    dA.Matches dA = true ∧
    reconcileOne (dbInsert emptyCatalog dA) noFailures
        (initState (dbInsert emptyCatalog dA)) dA =
      initState (dbInsert emptyCatalog dA) :=
  ⟨by decide, by decide,
    C4_skip_no_store_call (dbInsert emptyCatalog dA) noFailures
      (initState (dbInsert emptyCatalog dA)) dA dA (by decide) (by decide)⟩

/-- Claim C5, counterexample. Both entries of `dupArchive` parse to
descriptors whose identifier is absent from the (empty) pre-pass index;
`Create` is attempted once for each, but the pass's created count is 1,
not 2: the second `Create` fails because the first one already stored
the identifier. -/
theorem C5_duplicate_create_count :
    parsedDescriptors parseStub dupArchive = [dA, dB] ∧
    dA.UID = dB.UID ∧
    emptyCatalog (dA.UID) = none ∧
    (traverseAndUpsertPlugins parseStub noFailures emptyCatalog
        dupArchive).ops = [StoreOp.create dA, StoreOp.create dB] ∧
    (traverseAndUpsertPlugins parseStub noFailures emptyCatalog
        dupArchive).cnt = 1 := by
  decide

/-- Claim C5, amended: a parsed descriptor whose identifier is not in
the pre-pass index gets exactly one `Create` call appended to the trace;
the created count increments by exactly 1 when the identifier is not
already live in the store (i.e. was not created earlier in the same
pass) and the call does not fail; a descriptor whose identifier is in
the pre-pass index (the update/skip path) never increments the count. -/
theorem C5_create_once (pluginMap : Catalog) (envFail : Nat → Bool)
    (s : PassState) (plugin : Plugin) :
    (pluginMap plugin.UID = none →
       (reconcileOne pluginMap envFail s plugin).ops =
         s.ops ++ [StoreOp.create plugin] ∧
       (s.db plugin.UID = none → envFail s.ops.length = false →
          (reconcileOne pluginMap envFail s plugin).cnt = s.cnt + 1)) ∧
    (∀ p, pluginMap plugin.UID = some p →
       (reconcileOne pluginMap envFail s plugin).cnt = s.cnt) := by
  constructor
  · intro hnone
    constructor
    · rw [reconcileOne_ops]
      unfold opFor
      rw [hnone]
    · intro hdb henv
      unfold reconcileOne
      rw [hnone]
      simp [hdb, henv]
  · intro p hsome
    unfold reconcileOne
    rw [hsome]
    by_cases hm : p.Matches plugin <;> simp [hm]

/-- Witness for C5_create_once: a fresh identifier increments the count
to 1; an identifier present in the index leaves it at 0. -/
theorem C5_create_once_witness :
    (reconcileOne emptyCatalog noFailures (initState emptyCatalog) dA).cnt =
      1 ∧
    (reconcileOne (dbInsert emptyCatalog dA) noFailures
        (initState (dbInsert emptyCatalog dA)) dB).cnt = 0 :=
  ⟨((C5_create_once emptyCatalog noFailures (initState emptyCatalog)
        dA).1 rfl).2 rfl rfl,
    (C5_create_once (dbInsert emptyCatalog dA) noFailures
        (initState (dbInsert emptyCatalog dA)) dB).2 dA (by decide)⟩

/-- Claim C6: a descriptor whose identifier is in the pre-pass index
with differing content gets exactly one `Update` call appended to the
trace, the created count does not change, a failed `Update` leaves the
catalog untouched, and the pass always continues with the remaining
descriptors (the fold never aborts). -/
theorem C6_update_once (pluginMap : Catalog) (envFail : Nat → Bool)
    (s : PassState) (plugin p : Plugin)
    (hfound : pluginMap plugin.UID = some p)
    (hdiff : p.Matches plugin = false) :
    (reconcileOne pluginMap envFail s plugin).ops =
      s.ops ++ [StoreOp.update plugin] ∧
    (reconcileOne pluginMap envFail s plugin).cnt = s.cnt ∧
    (envFail s.ops.length = true →
       (reconcileOne pluginMap envFail s plugin).db = s.db) ∧
    (∀ rest : List Plugin,
       List.foldl (reconcileOne pluginMap envFail) s (plugin :: rest) =
         List.foldl (reconcileOne pluginMap envFail)
           (reconcileOne pluginMap envFail s plugin) rest) := by
  refine ⟨?_, ?_, ?_, fun rest => rfl⟩
  · rw [reconcileOne_ops]
    unfold opFor
    rw [hfound]
    simp [hdiff]
  · unfold reconcileOne
    rw [hfound]
    simp [hdiff]
  · intro henv
    unfold reconcileOne
    rw [hfound]
    simp [hdiff, henv]

/-- Witness for C6_update_once, with the store call failing: the update
is attempted, the catalog is unchanged. -/
theorem C6_update_once_witness :
    (reconcileOne (dbInsert emptyCatalog dA) envAlwaysFail
        (initState (dbInsert emptyCatalog dA)) dB).ops =
      [StoreOp.update dB] ∧
    (reconcileOne (dbInsert emptyCatalog dA) envAlwaysFail
        (initState (dbInsert emptyCatalog dA)) dB).db =
      (initState (dbInsert emptyCatalog dA)).db := by
  have h := C6_update_once (dbInsert emptyCatalog dA) envAlwaysFail
    (initState (dbInsert emptyCatalog dA)) dB dA (by decide) (by decide)
  exact ⟨by rw [h.1]; rfl, h.2.2.1 rfl⟩

/-- Claim C7 (code bug): `downloadZip` never inspects the response
status code; a non-2xx (here 404) response is not rejected — its body is
what gets written to the temporary file and later processed as archive
content, instead of the fetch failing with a transport error. -/
theorem C7_status_ignored :
    downloadZip
        (fun _ => Except.ok { StatusCode := 404, Body := "not a zip" })
        ("https://example.test/plugins.zip") =
      Except.ok ("not a zip") := rfl

/-- Claim C8: a lookup with kind other than "plugin" or type other than
"step" returns an error with the store's `Find` never invoked; only
queries with both kind "plugin" and type "step" reach the store. -/
theorem C8_lookup_guard (find : String → String → Except String Plugin)
    (parseStr : String → Option Config) (name kind typ version : String) :
    (kind ≠ "plugin" ∨ typ ≠ "step" →
       (GetLookupFn find parseStr name kind typ version).2 = false ∧
       ∃ e, (GetLookupFn find parseStr name kind typ version).1 =
         Except.error e) ∧
    (kind = "plugin" → typ = "step" →
       (GetLookupFn find parseStr name kind typ version).2 = true) := by
  constructor
  · intro h
    have hcond : (kind != "plugin") = true ∨
        ((kind != "plugin") = false ∧ (typ != "step") = true) := by
      rcases h with h | h
      · exact Or.inl (bne_iff_ne.mpr h)
      · by_cases hk : kind = "plugin"
        · refine Or.inr ⟨?_, bne_iff_ne.mpr h⟩
          rw [hk]
          exact bne_self_eq_false _
        · exact Or.inl (bne_iff_ne.mpr hk)
    unfold GetLookupFn
    rcases hcond with hc | ⟨hc1, hc2⟩
    · rw [if_pos hc]
      exact ⟨rfl, ⟨_, rfl⟩⟩
    · rw [if_neg (by simp [hc1]), if_pos hc2]
      exact ⟨rfl, ⟨_, rfl⟩⟩
  · intro h1 h2
    unfold GetLookupFn
    rw [if_neg (by simp [h1]), if_neg (by simp [h2])]
    cases hf : find name version with
    | error e => rfl
    | ok plugin =>
      dsimp only
      cases hp : parseStr plugin.Spec with
      | none => rfl
      | some config => rfl

/-- Witness for C8_lookup_guard: an unsupported kind is rejected before
the store, a supported query reaches it. -/
theorem C8_lookup_guard_witness :
    (GetLookupFn findStub parseStub ("docker") ("pipeline") ("step")
        ("")).2 = false ∧
    (GetLookupFn findStub parseStub ("docker") ("plugin") ("step")
        ("")).2 = true :=
  ⟨((C8_lookup_guard findStub parseStub ("docker") ("pipeline") ("step")
        ("")).1 (Or.inl (by decide))).1,
    (C8_lookup_guard findStub parseStub ("docker") ("plugin") ("step")
        ("")).2 rfl rfl⟩

/-- Claim C9: a catalog entry whose identifier is not among the parsed
descriptors of the archive is byte-for-byte unchanged by the pass, and
no store call of the pass addresses it. -/
theorem C9_untouched (parse : String → Option Config)
    (envFail : Nat → Bool) (db0 : Catalog) (files : List ZipFile)
    (uid : String)
    (h : ∀ d ∈ parsedDescriptors parse files, d.UID ≠ uid) :
    (traverseAndUpsertPlugins parse envFail db0 files).db uid = db0 uid ∧
    ∀ op ∈ (traverseAndUpsertPlugins parse envFail db0 files).ops,
      op.uid ≠ uid := by
  rw [traverse_eq]
  constructor
  · exact foldl_db_other db0 envFail uid (parsedDescriptors parse files)
      (initState db0) h
  · intro op hop
    rw [foldl_ops] at hop
    have h0 : (initState db0).ops = [] := rfl
    rw [h0, List.nil_append] at hop
    obtain ⟨d, hd, hu⟩ := traceList_uid db0 _ op hop
    rw [hu]
    exact h d hd

/-- Witness for C9_untouched: a pass creating only "docker" leaves the
"envoy" slot untouched and addresses no call to it. -/
theorem C9_untouched_witness :
    (∀ d ∈ parsedDescriptors parseStub [entryA], d.UID ≠ "envoy") ∧
    (traverseAndUpsertPlugins parseStub noFailures emptyCatalog
        [entryA]).db ("envoy") = emptyCatalog ("envoy") ∧
    (∀ op ∈ (traverseAndUpsertPlugins parseStub noFailures emptyCatalog
        [entryA]).ops, op.uid ≠ "envoy") :=
  ⟨by decide,
    (C9_untouched parseStub noFailures emptyCatalog [entryA] ("envoy")
      (by decide)).1,
    (C9_untouched parseStub noFailures emptyCatalog [entryA] ("envoy")
      (by decide)).2⟩

/-- Claim C10: the identifier index is the pre-pass catalog and is never
refreshed during the pass: the full trace of attempted store calls is
determined, descriptor by descriptor, by lookups in the pre-pass catalog
`db0` alone — regardless of the creates and updates already performed
(and even of which calls failed). In particular a second descriptor with
the same fresh identifier yields a second `create` call, not an update
or a skip. -/
theorem C10_index_fixed (parse : String → Option Config)
    (envFail : Nat → Bool) (db0 : Catalog) (files : List ZipFile) :
    (traverseAndUpsertPlugins parse envFail db0 files).ops =
      traceList db0 (parsedDescriptors parse files) := by
  rw [traverse_eq, foldl_ops]
  rfl

end Gitness
